/-
Verification of the td-network-creator-mode example scripts.

The repository is a set of Python scripts that drive a proprietary
node-graph host ("operators" with input/output connectors, containers,
parameters).  The scripts themselves contain a handful of pure helper
functions and small helper classes; this file embeds those helpers in
Lean, translated directly from the Python source, and proves or refutes
the specification's claims about them.
-/
import Mathlib

namespace TDNet

/-! ## Path utilities (network_navigation_examples.py, `get_relative_path`)

`get_relative_path` works on `'/'`-separated path strings via
`path.split('/')`; we embed the component-level computation over
`List String` (the result of the split) and also the string-building
step.  The loop

    common_len = 0
    for i in range(min(len(from_parts), len(to_parts))):
        if from_parts[i] == to_parts[i]:
            common_len = i + 1
        else:
            break

computes the number of leading positions where the two component lists
agree; `commonLen` is that recursion. -/

/-- Length of the component-wise common prefix of two split paths, as the
`for`/`break` loop in `get_relative_path` computes it. -/
def commonLen : List String → List String → Nat
  | a :: as, b :: bs => if a = b then commonLen as bs + 1 else 0
  | _, _ => 0

/-- The pair computed by `get_relative_path` after the common prefix is
found: `up_levels = len(from_parts) - common_len` and the remaining
components `to_parts[common_len:]`. -/
def relParts (from_parts to_parts : List String) : Nat × List String :=
  let common_len := commonLen from_parts to_parts
  (from_parts.length - common_len, to_parts.drop common_len)

/-- The string `get_relative_path` returns:
`'../' * up_levels + '/'.join(to_parts[common_len:])`. -/
def get_relative_path (fromPath toPath : String) : String :=
  let from_parts := fromPath.splitOn "/"
  let to_parts := toPath.splitOn "/"
  let common_len := commonLen from_parts to_parts
  let up_levels := from_parts.length - common_len
  String.join (List.replicate up_levels "../") ++
    String.intercalate "/" (to_parts.drop common_len)

/-- Resolution of a relative path, component-wise, against a base path:
going up one component per leading `../` segment (dropping that many
trailing components of the base) and then descending along the remaining
components. -/
def resolveRel (base : List String) (rel : Nat × List String) : List String :=
  base.take (base.length - rel.1) ++ rel.2

/-! ## Connection-graph traversal helpers
(connection_examples.py `get_downstream_ops` / `get_upstream_ops`,
network_navigation_examples.py `find_paths`)

Operators are numbered; a `ConnGraph` gives, for each operator, its
output connectors and input connectors, each connector carrying the list
of operators on its other end (for an output connector the Python code
reads `connection.owner`; for an input connector it uses the connected
object itself, which is how `are_connected` also treats input
connections).  The Python helpers recurse without any fuel; the Lean
embedding adds an explicit fuel argument and returns `none` when the
fuel runs out, so that a recursion that never bottoms out is `none` for
every fuel. -/

structure ConnGraph where
  out : Nat → List (List Nat)
  inp : Nat → List (List Nat)

/-- Operators one output-connection step downstream of `v`, connector by
connector (`connection.owner` for each connection of each output
connector). -/
def outSuccs (g : ConnGraph) (v : Nat) : List Nat := (g.out v).flatten

/-- Operators one input-connection step upstream of `v`. -/
def inSuccs (g : ConnGraph) (v : Nat) : List Nat := (g.inp v).flatten

/-- The loop body of `get_downstream_ops`: for each connection target `w`
in order, append `w` and then the recursively collected list for `w`
(`downstream.append(...)` followed by `downstream.extend(...)`); `none`
propagates fuel exhaustion from any recursive call. -/
def downListWith (f : Nat → Option (List Nat)) : List Nat → Option (List Nat)
  | [] => some []
  | w :: ws =>
    match f w, downListWith f ws with
    | some rest, some tail => some (w :: (rest ++ tail))
    | _, _ => none

/-- Fuelled core of `get_downstream_ops` (and of `get_upstream_ops`, which
is the same recursion over the input adjacency): collect
`w :: recurse w` over all one-step successors, then `list(set(...))`
(modelled as `List.dedup`). -/
def downCore (succ : Nat → List Nat) : Nat → Nat → Option (List Nat)
  | 0, _ => none
  | fuel + 1, v =>
    (downListWith (fun w => downCore succ fuel w) (succ v)).map List.dedup

/-- `get_downstream_ops(operator)` over the output connectors. -/
def get_downstream_ops (g : ConnGraph) (fuel v : Nat) : Option (List Nat) :=
  downCore (outSuccs g) fuel v

/-- `get_upstream_ops(operator)` over the input connectors. -/
def get_upstream_ops (g : ConnGraph) (fuel v : Nat) : Option (List Nat) :=
  downCore (inSuccs g) fuel v

/-- Reachability in one or more steps along `succ`. -/
inductive Reaches (succ : Nat → List Nat) : Nat → Nat → Prop
  | single {v w : Nat} : w ∈ succ v → Reaches succ v w
  | step {v w u : Nat} : w ∈ succ v → Reaches succ w u → Reaches succ v u

/-- The unfuelled Python recursion returns on input `v` exactly when some
fuel suffices for the fuelled embedding. -/
def TerminatesOn (succ : Nat → List Nat) (v : Nat) : Prop :=
  ∃ fuel, (downCore succ fuel v).isSome

/-- The loop of `find_paths`: for each connection target `w` in order,
skip it when it is already in the visited set, otherwise recurse and
append the sub-paths found from `w`. -/
def find_paths_listWith (visited : List Nat) (f : Nat → Option (List (List Nat))) :
    List Nat → Option (List (List Nat))
  | [] => some []
  | w :: ws =>
    if w ∈ visited then find_paths_listWith visited f ws
    else
      match f w, find_paths_listWith visited f ws with
      | some sub, some rest => some (sub ++ rest)
      | _, _ => none

/-- Fuelled embedding of `find_paths(start_op, end_op, visited)`: return
`[[start_op]]` when start equals end, otherwise add start to the visited
set, recurse into each unvisited connection target, and prepend start to
every path found. -/
def find_paths_core (g : ConnGraph) (e : Nat) : Nat → Nat → List Nat → Option (List (List Nat))
  | 0, _, _ => none
  | fuel + 1, s, visited =>
    if s = e then some [[s]]
    else
      (find_paths_listWith (s :: visited) (fun w => find_paths_core g e fuel w (s :: visited))
        (outSuccs g s)).map (List.map (fun p => s :: p))

/-- `find_paths(start_op, end_op)` with its default empty visited set. -/
def find_paths (g : ConnGraph) (fuel s e : Nat) : Option (List (List Nat)) :=
  find_paths_core g e fuel s []

/-- The wire cycle `create_generative_feedback_system` constructs:
`blend_initial.in0 ← feedback`, `transform_fb.in0 ← blend_initial`,
`feedback.in0 ← transform_fb`, numbered 0 = feedback, 1 = blend_initial,
2 = transform_fb, so the downstream adjacency is the cycle
0 → 1 → 2 → 0. -/
def feedbackCycle : ConnGraph where
  out := fun v => if v < 3 then [[(v + 1) % 3]] else []
  inp := fun v => if v < 3 then [[(v + 2) % 3]] else []

/-- The unfuelled `get_downstream_ops` returns a value on input `v` of
graph `g` exactly when some fuel suffices for the fuelled embedding. -/
def DownstreamTerminatesOn (g : ConnGraph) (v : Nat) : Prop :=
  ∃ fuel, (get_downstream_ops g fuel v).isSome

/-! ## Rewiring helpers (connection_examples.py `are_connected`,
`insert_operator_between`)

These two helpers read and mutate only input connectors, so the mutable
state is `st : Nat → List (List Nat)`: for each operator the list of its
input connectors, each holding the connected source operators.
`connector.disconnect()` empties a connector; `connector.connect(x)` sets
the single connection of an input connector to `x` (host input
connectors hold one connection; connecting replaces it). -/

abbrev InState := Nat → List (List Nat)

/-- Pointwise update of the input-connector state of one operator. -/
def updateF (st : InState) (k : Nat) (v : List (List Nat)) : InState :=
  fun x => if x = k then v else st x

/-- The test `connector.connections and source in connector.connections`
applied to one connector. -/
def hasSourceConn (source : Nat) (c : List Nat) : Bool :=
  !c.isEmpty && c.contains source

/-- `are_connected(source, target)`: some input connector of `target` has
a non-empty connection list containing `source`. -/
def are_connected (st : InState) (source target : Nat) : Bool :=
  (st target).any (hasSourceConn source)

/-- Index of the first connector satisfying `p`, as the
`for i, connector in enumerate(target.inputConnectors)` loop finds it. -/
def findFirstIdx (p : List Nat → Bool) : List (List Nat) → Option Nat
  | [] => none
  | c :: cs => if p c then some 0 else (findFirstIdx p cs).map (· + 1)

/-- `insert_operator_between(new_op, source, target)`: at the first input
connector of `target` connected to `source`, disconnect it, connect
`source` to `new_op`'s first input connector, connect that connector of
`target` to `new_op`, and return `True`; if no such connector exists,
return `False` without touching anything. -/
def insert_operator_between (st : InState) (new_op source target : Nat) :
    Bool × InState :=
  match findFirstIdx (hasSourceConn source) (st target) with
  | some i =>
    let st1 := updateF st target ((st target).set i [])
    let st2 := updateF st1 new_op ((st1 new_op).set 0 [source])
    let st3 := updateF st2 target ((st2 target).set i [new_op])
    (true, st3)
  | none => (false, st)

/-! ## OperatorPool (performance_optimization_examples.py)

The constructor pre-creates `pool_size` operators (numbered `0` to
`pool_size - 1` in creation order) into `available`; `acquire` pops the
last available operator (`list.pop()`) and appends it to `in_use`, or
returns `None` when `available` is empty; `release` moves an operator
back from `in_use` to `available` (`list.remove` drops the first
occurrence) and is a no-op for operators not in `in_use`.  The
off-screen positioning, `bypass` flag and parameter resets are host-side
attribute writes that do not affect the pool lists. -/

structure Pool where
  available : List Nat
  in_use : List Nat

/-- `OperatorPool.__init__(op_type, pool_size)`: all `pool_size`
pre-created operators start in `available`. -/
def Pool.init (pool_size : Nat) : Pool :=
  { available := List.range pool_size, in_use := [] }

/-- `OperatorPool.acquire()`. -/
def Pool.acquire (p : Pool) : Pool × Option Nat :=
  match p.available.getLast? with
  | some x =>
    ({ available := p.available.dropLast, in_use := p.in_use ++ [x] }, some x)
  | none => (p, none)

/-- `OperatorPool.release(op_obj)`. -/
def Pool.release (p : Pool) (x : Nat) : Pool :=
  if x ∈ p.in_use then
    { available := p.available ++ [x], in_use := p.in_use.erase x }
  else p

inductive PoolAction where
  | acquire : PoolAction
  | release : Nat → PoolAction

def Pool.step (p : Pool) : PoolAction → Pool
  | .acquire => p.acquire.1
  | .release x => p.release x

/-- Any client call sequence of `acquire()` and `release(...)`. -/
def Pool.run (p : Pool) (acts : List PoolAction) : Pool :=
  acts.foldl Pool.step p

/-! ## Error-handling wrappers (error_handling_examples.py)

Host calls are modelled as `Except String α`: `Except.error e` is a
raised exception with message `e`.  A wrapper's result is the pair of
the messages it prints and the value or exception its caller sees;
a result of `Except.error _` means the exception propagates (is
re-raised) to the caller. -/

/-- `safe_operator_creation(parent, op_type, name)` given the outcome of
the guarded `parent.create(op_type, name)` host call. -/
def safe_operator_creation (name : String) (created : Except String Nat) :
    List String × Option Nat :=
  match created with
  | .ok newOp => (["Successfully created " ++ name], some newOp)
  | .error e => (["Failed to create " ++ name ++ ": " ++ e], none)

/-- `OperatorContext.__exit__(exc_type, exc_val, exc_tb)`: on an
exception it destroys the operator when one was created, and it always
returns `False` (`return False  # Don't suppress exceptions`).  The
result is (destroy attempted, value returned to the `with` machinery). -/
def OperatorContext_exit (operator : Option Nat) (excType : Option String) :
    Bool × Bool :=
  match excType with
  | some _ => (operator.isSome, false)
  | none => (false, false)

/-- The `with OperatorContext(...) as const: body` statement:
`__enter__` re-raises a creation failure after printing; a body
exception is passed to `__exit__`, and is suppressed (yielding no value)
only if `__exit__` returns `True`. -/
def with_OperatorContext {β : Type} (created : Except String Nat)
    (body : Nat → Except String β) : Except String (Option β) :=
  match created with
  | .error e => .error e
  | .ok opid =>
    match body opid with
    | .ok r => .ok (some r)
    | .error e =>
      if (OperatorContext_exit (some opid) (some e)).2 then .ok none
      else .error e

/-- The `debug_operation` decorator: log the call, run `func`, log
success and return the result, or log the failure and re-raise
(`except Exception as e: logger.error(...); raise`). -/
def debug_operation {α β : Type} (fname : String) (f : α → Except String β)
    (args : α) : List String × Except String β :=
  match f args with
  | .ok r => (["Calling " ++ fname, fname ++ " completed successfully"], .ok r)
  | .error e => (["Calling " ++ fname, fname ++ " failed: " ++ e], .error e)

/-- The `test_function(x, y)` used to exercise `debug_operation`: raises
`ValueError("Division by zero")` when `y == 0`, else returns `x / y`. -/
def test_function (p : Nat × Nat) : Except String Nat :=
  if p.2 = 0 then .error "Division by zero" else .ok (p.1 / p.2)

/-! ## NetworkState (error_handling_examples.py)

An operator is its path, name, node position and parameter bag; a
parameter bag is an association list from parameter names to (opaque,
here integer-modelled) values.  `par.eval()` is total in this embedding;
in the source a parameter whose `eval()` raises is silently skipped at
save time, so "captured" below means all parameters.  The `state` dict
is an association list keyed by operator path where the most recent
`save` is found first, like a Python dict overwrite. -/

structure Operator where
  path : String
  name : String
  typeName : String
  nodeX : Int
  nodeY : Int
  params : List (String × Int)

structure OpState where
  typeName : String
  name : String
  position : Int × Int
  parameters : List (String × Int)

/-- `NetworkState.save_operator_state(operator)`: a falsy operator is
ignored; otherwise type, name, position and all parameter values are
recorded under the operator's path. -/
def save_operator_state (st : List (String × OpState)) (o : Option Operator) :
    List (String × OpState) :=
  match o with
  | none => st
  | some opr =>
    (opr.path,
      { typeName := opr.typeName, name := opr.name,
        position := (opr.nodeX, opr.nodeY), parameters := opr.params }) :: st

/-- `setattr(operator.par, par_name, value)` on the parameter bag:
replaces the value of the first entry with that name, leaves the bag
unchanged when the name is absent. -/
def setParam : List (String × Int) → String → Int → List (String × Int)
  | [], _, _ => []
  | (k', v') :: rest, k, v =>
    if k' = k then (k', v) :: rest else (k', v') :: setParam rest k v

/-- One iteration of the restore loop: set the saved value if the
operator still has the parameter (`hasattr(operator.par, par_name)`),
otherwise skip it. -/
def restoreStep (acc : Operator) (kv : String × Int) : Operator :=
  if (List.lookup kv.1 acc.params).isSome then
    { acc with params := setParam acc.params kv.1 kv.2 }
  else acc

/-- `NetworkState.restore_operator_state(operator)`: `False` for a falsy
operator or an unsaved path; otherwise restore `nodeX`/`nodeY`, then
each saved parameter that the operator still has
(`hasattr(operator.par, par_name)`), and return `True`. -/
def restore_operator_state (st : List (String × OpState)) (o : Option Operator) :
    Bool × Option Operator :=
  match o with
  | none => (false, none)
  | some opr =>
    match List.lookup opr.path st with
    | none => (false, some opr)
    | some s =>
      let op1 := { opr with nodeX := s.position.1, nodeY := s.position.2 }
      let op2 := s.parameters.foldl restoreStep op1
      (true, some op2)

/-! ## Script entry functions as graph builders
(network-templates/audio_reactive_template.py `create_audio_reactive_system`,
python-api-examples/connection_examples.py `basic_connection_examples`)

A `World` records the operators a script creates (parent, host operator
type, name, in creation order; id 0 is the pre-existing `/project1`
container, created operators get ids 1, 2, ...) and an event log of the
`connect` calls (target, input index, source).  Parameter and
`nodeX`/`nodeY` attribute writes are host-side value assignments that do
not change which operators exist, who owns them, or what the function
returns, and are not recorded. -/

inductive OpFamily where
  | COMP | TOP | CHOP
deriving DecidableEq

inductive OpType where
  | containerCOMP
  | audiodeviceinCHOP | levelCHOP | analyzeCHOP | selectCHOP | mathCHOP
  | lagCHOP | trailCHOP | mergeCHOP
  | rampTOP | noiseTOP | circleTOP | compositeTOP | hsvAdjustTOP | outTOP
  | choptoTOP | blurTOP
deriving DecidableEq

/-- The host operator family each operator type belongs to. -/
def OpType.family : OpType → OpFamily
  | .containerCOMP => .COMP
  | .audiodeviceinCHOP | .levelCHOP | .analyzeCHOP | .selectCHOP
  | .mathCHOP | .lagCHOP | .trailCHOP | .mergeCHOP => .CHOP
  | _ => .TOP

structure CreatedOp where
  parent : Nat
  opType : OpType
  name : String
deriving DecidableEq

structure World where
  ops : List CreatedOp
  conns : List (Nat × Nat × Nat)
deriving DecidableEq

/-- `parent.create(op_type, name)`: returns the updated world and the id
of the new operator. -/
def World.create (w : World) (parent : Nat) (t : OpType) (name : String) :
    World × Nat :=
  ({ w with ops := w.ops ++ [⟨parent, t, name⟩] }, w.ops.length + 1)

/-- `target.inputConnectors[idx].connect(source)`, recorded as an event. -/
def World.connect (w : World) (target idx source : Nat) : World :=
  { w with conns := w.conns ++ [(target, idx, source)] }

/-- The host type of the operator with id `id` (`none` for the
pre-existing `/project1`). -/
def World.typeOf (w : World) (id : Nat) : Option OpType :=
  if id = 0 then none else (w.ops.get? (id - 1)).map fun c => c.opType

/-- `basic_connection_examples()`: creates `conn_noise1`, `conn_noise2`,
`conn_composite` and `conn_blur` under `/project1`, connects
`comp.in0 ← noise1`, `comp.in1 ← noise2` and `comp.out0 → blur` (wiring
`blur`'s first input to `comp`), and returns `blur`. -/
def basic_connection_examples (w0 : World) : World × Nat :=
  let r1 := w0.create 0 .noiseTOP "conn_noise1"
  let noise1 := r1.2
  let r2 := r1.1.create 0 .noiseTOP "conn_noise2"
  let noise2 := r2.2
  let r3 := r2.1.create 0 .compositeTOP "conn_composite"
  let comp := r3.2
  let w4 := (r3.1.connect comp 0 noise1).connect comp 1 noise2
  let r5 := w4.create 0 .blurTOP "conn_blur"
  let blur := r5.2
  let w6 := r5.1.connect blur 0 comp
  (w6, blur)

/-- `create_audio_reactive_system()`: creates the `audio_reactive_system`
container under `/project1`, creates every other operator inside it,
wires the audio analysis, visual and composition chains, and returns the
container. -/
def create_audio_reactive_system (w0 : World) : World × Nat :=
  let rBase := w0.create 0 .containerCOMP "audio_reactive_system"
  let base := rBase.2
  let r1 := rBase.1.create base .audiodeviceinCHOP "audio_input"
  let audio_in := r1.2
  let r2 := r1.1.create base .levelCHOP "audio_level"
  let level_meter := r2.2
  let w2 := r2.1.connect level_meter 0 audio_in
  let r3 := w2.create base .analyzeCHOP "fft_analysis"
  let fft := r3.2
  let w3 := r3.1.connect fft 0 audio_in
  let r4 := w3.create base .selectCHOP "bass_band"
  let bass_select := r4.2
  let w4 := r4.1.connect bass_select 0 fft
  let r5 := w4.create base .mathCHOP "bass_average"
  let bass_math := r5.2
  let w5 := r5.1.connect bass_math 0 bass_select
  let r6 := w5.create base .selectCHOP "mid_band"
  let mid_select := r6.2
  let w6 := r6.1.connect mid_select 0 fft
  let r7 := w6.create base .mathCHOP "mid_average"
  let mid_math := r7.2
  let w7 := r7.1.connect mid_math 0 mid_select
  let r8 := w7.create base .selectCHOP "high_band"
  let high_select := r8.2
  let w8 := r8.1.connect high_select 0 fft
  let r9 := w8.create base .mathCHOP "high_average"
  let high_math := r9.2
  let w9 := r9.1.connect high_math 0 high_select
  let r10 := w9.create base .lagCHOP "bass_smooth"
  let bass_smooth := r10.2
  let w10 := r10.1.connect bass_smooth 0 bass_math
  let r11 := w10.create base .lagCHOP "mid_smooth"
  let mid_smooth := r11.2
  let w11 := r11.1.connect mid_smooth 0 mid_math
  let r12 := w11.create base .lagCHOP "high_smooth"
  let high_smooth := r12.2
  let w12 := r12.1.connect high_smooth 0 high_math
  let r13 := w12.create base .rampTOP "bass_gradient"
  let gradient := r13.2
  let r14 := r13.1.create base .noiseTOP "mid_noise"
  let noise := r14.2
  let r15 := r14.1.create base .circleTOP "high_circles"
  let circle := r15.2
  let r16 := r15.1.create base .compositeTOP "blend_1"
  let comp1 := r16.2
  let w16 := (r16.1.connect comp1 0 gradient).connect comp1 1 noise
  let r17 := w16.create base .compositeTOP "blend_2"
  let comp2 := r17.2
  let w17 := (r17.1.connect comp2 0 comp1).connect comp2 1 circle
  let r18 := w17.create base .hsvAdjustTOP "color_adjust"
  let hsv_adjust := r18.2
  let w18 := r18.1.connect hsv_adjust 0 comp2
  let r19 := w18.create base .outTOP "output"
  let out := r19.2
  let w19 := r19.1.connect out 0 hsv_adjust
  let r20 := w19.create base .containerCOMP "controls"
  let r21 := r20.1.create base .mathCHOP "bass_gain"
  let bass_gain := r21.2
  let w21 := (r21.1.connect bass_gain 0 bass_math).connect bass_smooth 0 bass_gain
  let r22 := w21.create base .mathCHOP "mid_gain"
  let mid_gain := r22.2
  let w22 := (r22.1.connect mid_gain 0 mid_math).connect mid_smooth 0 mid_gain
  let r23 := w22.create base .mathCHOP "high_gain"
  let high_gain := r23.2
  let w23 := (r23.1.connect high_gain 0 high_math).connect high_smooth 0 high_gain
  let r24 := w23.create base .trailCHOP "freq_history"
  let trail := r24.2
  let r25 := r24.1.create base .mergeCHOP "freq_merge"
  let merge := r25.2
  let w25 := ((r25.1.connect merge 0 bass_smooth).connect merge 1
    mid_smooth).connect merge 2 high_smooth
  let w25b := w25.connect trail 0 merge
  let r26 := w25b.create base .choptoTOP "freq_viz"
  let chop_to_top := r26.2
  let w26 := r26.1.connect chop_to_top 0 trail
  (w26, base)

/-- The connection graph `connection_utility_examples` builds before the
insertion step: conn_noise1 = 0, conn_noise2 = 1, util_blur = 2,
util_comp = 3, with `blur.in0 ← n1`, `comp.in0 ← blur`,
`comp.in1 ← n2`. -/
def utilGraph : ConnGraph where
  out := fun v => [[[2]], [[3]], [[3]], []].getD v []
  inp := fun v => [[], [], [[0]], [[2], [1]]].getD v []

/-- The input-connector state of the same script graph together with the
freshly created `util_level` = 4 (one input connector, unconnected), as
it stands right before `insert_operator_between(level, blur, comp)`. -/
def utilInState : InState :=
  fun v => [[], [], [[0]], [[2], [1]], [[]]].getD v []

/-- A concrete operator as the state-preservation test uses one: the
noise operator with a couple of parameters. -/
def exampleOp : Operator :=
  { path := "/project1/error_test_noise", name := "error_test_noise",
    typeName := "noiseTOP", nodeX := 1, nodeY := 2,
    params := [("seed", 3), ("period", 4)] }

/-- A concrete in-between modification: move the operator and change its
parameter values (keeping the captured parameters present). -/
def exampleMod (o : Operator) : Operator :=
  { o with
    nodeX := 99
    nodeY := -7
    params := [("period", 9), ("seed", 8), ("extra", 1)] }



theorem commonLen_le_left : ∀ (a b : List String), commonLen a b ≤ a.length
  | [], _ => Nat.le_refl _
  | _ :: _, [] => Nat.zero_le _
  | x :: as, y :: bs => by
    simp only [commonLen]
    split
    · exact Nat.succ_le_succ (commonLen_le_left as bs)
    · exact Nat.zero_le _

theorem commonLen_le_right : ∀ (a b : List String), commonLen a b ≤ b.length
  | [], _ => Nat.zero_le _
  | _ :: _, [] => Nat.zero_le _
  | x :: as, y :: bs => by
    simp only [commonLen]
    split
    · exact Nat.succ_le_succ (commonLen_le_right as bs)
    · exact Nat.zero_le _

theorem take_commonLen_eq : ∀ (a b : List String),
    a.take (commonLen a b) = b.take (commonLen a b)
  | [], _ => by simp [commonLen]
  | _ :: _, [] => by simp [commonLen]
  | x :: as, y :: bs => by
    simp only [commonLen]
    split
    · next h => simp [List.take_succ_cons, h, take_commonLen_eq as bs]
    · simp

theorem commonLen_longest : ∀ (a b : List String) (k : Nat),
    k ≤ a.length → a.take k = b.take k → k ≤ commonLen a b
  | _, _, 0, _, _ => Nat.zero_le _
  | [], b, k + 1, hk, h => by simp at hk
  | a :: as, [], k + 1, hk, h => by simp at h
  | a :: as, b :: bs, k + 1, hk, h => by
    simp only [List.take_succ_cons, List.cons.injEq] at h
    simp only [commonLen, h.1, if_true]
    exact Nat.succ_le_succ
      (commonLen_longest as bs k (Nat.le_of_succ_le_succ (by simpa using hk)) h.2)

/-- Core round-trip: resolving the `(up_levels, remaining)` pair that
`get_relative_path` computes against the source components yields the
target components exactly. -/
theorem resolveRel_relParts (from_parts to_parts : List String) :
    resolveRel from_parts (relParts from_parts to_parts) = to_parts := by
  unfold resolveRel relParts
  simp only
  have hle := commonLen_le_left from_parts to_parts
  rw [Nat.sub_sub_self hle, take_commonLen_eq from_parts to_parts]
  exact List.take_append_drop _ _

theorem reaches_iff (succ : Nat → List Nat) (v u : Nat) :
    Reaches succ v u ↔ ∃ s ∈ succ v, u = s ∨ Reaches succ s u := by
  constructor
  · intro h
    cases h with
    | single h1 => exact ⟨u, h1, Or.inl rfl⟩
    | @step _ w _ h1 h2 => exact ⟨w, h1, Or.inr h2⟩
  · rintro ⟨s, hs, rfl | hr⟩
    · exact Reaches.single hs
    · exact Reaches.step hs hr

theorem downListWith_spec {R : Nat → Nat → Prop} {f : Nat → Option (List Nat)}
    (hf : ∀ w r, f w = some r → ∀ u, (u ∈ r ↔ R w u)) :
    ∀ (ws : List Nat) (l : List Nat), downListWith f ws = some l →
      ∀ u, (u ∈ l ↔ ∃ s ∈ ws, u = s ∨ R s u)
  | [], l, h, u => by
    simp only [downListWith, Option.some.injEq] at h
    simp [← h]
  | w :: ws, l, h, u => by
    simp only [downListWith] at h
    cases hw : f w with
    | none => rw [hw] at h; exact absurd h (by simp)
    | some rest =>
      cases hws : downListWith f ws with
      | none => rw [hw, hws] at h; exact absurd h (by simp)
      | some tail =>
        rw [hw, hws] at h
        simp only [Option.some.injEq] at h
        subst h
        have h1 := hf w rest hw u
        have h2 := downListWith_spec hf ws tail hws u
        simp only [List.mem_cons, List.mem_append, h1, h2]
        constructor
        · rintro (rfl | hr | ⟨s, hs, hsu⟩)
          · exact ⟨u, Or.inl rfl, Or.inl rfl⟩
          · exact ⟨w, Or.inl rfl, Or.inr hr⟩
          · exact ⟨s, Or.inr hs, hsu⟩
        · rintro ⟨s, rfl | hs, hsu⟩
          · rcases hsu with rfl | hr
            · exact Or.inl rfl
            · exact Or.inr (Or.inl hr)
          · exact Or.inr (Or.inr ⟨s, hs, hsu⟩)

/-- Partial correctness of the downstream/upstream recursion: whenever it
returns a list, that list has no duplicates and contains exactly the
operators reachable in one or more steps. -/
theorem downCore_spec (succ : Nat → List Nat) :
    ∀ (fuel v : Nat) (l : List Nat), downCore succ fuel v = some l →
      (∀ u, (u ∈ l ↔ Reaches succ v u)) ∧ l.Nodup := by
  intro fuel
  induction fuel with
  | zero => intro v l h; simp [downCore] at h
  | succ fuel ih =>
    intro v l h
    simp only [downCore] at h
    cases hL : downListWith (fun w => downCore succ fuel w) (succ v) with
    | none => rw [hL] at h; exact absurd h (by simp)
    | some L =>
      rw [hL] at h
      simp only [Option.map_some', Option.some.injEq] at h
      subst h
      have hmem := downListWith_spec (R := Reaches succ)
        (fun w r hr u => ((ih w r hr).1 u)) (succ v) L hL
      refine ⟨fun u => ?_, L.nodup_dedup⟩
      rw [List.mem_dedup, hmem u, ← reaches_iff]

theorem downListWith_isSome {f : Nat → Option (List Nat)} :
    ∀ (ws : List Nat), (∀ w ∈ ws, (f w).isSome) → (downListWith f ws).isSome
  | [], _ => by simp [downListWith]
  | w :: ws, h => by
    have hw := h w (List.mem_cons_self _ _)
    have hws := downListWith_isSome ws (fun x hx => h x (List.mem_cons_of_mem _ hx))
    simp only [downListWith]
    cases hfw : f w with
    | none => rw [hfw] at hw; simp at hw
    | some rest =>
      cases hws' : downListWith f ws with
      | none => rw [hws'] at hws; simp at hws
      | some tail => simp

/-- On an acyclic adjacency (witnessed by a rank strictly decreasing along
every connection), the downstream recursion completes once the fuel
exceeds the rank of the start operator. -/
theorem downCore_isSome_of_rank (succ : Nat → List Nat) (rank : Nat → Nat)
    (hrank : ∀ v w, w ∈ succ v → rank w < rank v) :
    ∀ (fuel v : Nat), rank v < fuel → (downCore succ fuel v).isSome := by
  intro fuel
  induction fuel with
  | zero => intro v hv; exact absurd hv (Nat.not_lt_zero _)
  | succ fuel ih =>
    intro v hv
    simp only [downCore, Option.isSome_map']
    exact downListWith_isSome (succ v) fun w hw =>
      ih w (Nat.lt_of_lt_of_le (hrank v w hw) (Nat.lt_succ_iff.mp hv))

theorem find_paths_listWith_isSome {visited : List Nat}
    {f : Nat → Option (List (List Nat))} :
    ∀ (ws : List Nat), (∀ w ∈ ws, w ∉ visited → (f w).isSome) →
      (find_paths_listWith visited f ws).isSome
  | [], _ => by simp [find_paths_listWith]
  | w :: ws, h => by
    have hws := find_paths_listWith_isSome ws
      (fun x hx => h x (List.mem_cons_of_mem _ hx))
    simp only [find_paths_listWith]
    by_cases hv : w ∈ visited
    · simpa [hv] using hws
    · have hw := h w (List.mem_cons_self _ _) hv
      rw [if_neg hv]
      cases hfw : f w with
      | none => rw [hfw] at hw; simp at hw
      | some sub =>
        cases hws' : find_paths_listWith visited f ws with
        | none => rw [hws'] at hws; simp at hws
        | some rest => simp

theorem nodup_bounded_length_le {l : List Nat} {n : Nat}
    (hnd : l.Nodup) (hlt : ∀ x ∈ l, x < n) : l.length ≤ n := by
  have hsub : l.toFinset ⊆ Finset.range n := fun x hx =>
    Finset.mem_range.mpr (hlt x (List.mem_toFinset.mp hx))
  calc l.length = l.toFinset.card := (List.toFinset_card_of_nodup hnd).symm
    _ ≤ (Finset.range n).card := Finset.card_le_card hsub
    _ = n := Finset.card_range n

/-- `find_paths` terminates on every finite connection graph, cyclic or
not: each recursive call strictly grows the visited set, which stays
inside the `n` operators of the graph, so fuel `n - |visited|` (plus one)
always suffices. -/
theorem find_paths_core_isSome (g : ConnGraph) (n : Nat) (e : Nat)
    (hbound : ∀ v, ∀ w ∈ outSuccs g v, w < n) :
    ∀ (fuel : Nat) (s : Nat) (visited : List Nat),
      visited.Nodup → (∀ x ∈ visited, x < n) → s < n → s ∉ visited →
      n - visited.length < fuel →
      (find_paths_core g e fuel s visited).isSome := by
  intro fuel
  induction fuel with
  | zero => intro s visited _ _ _ _ hf; exact absurd hf (Nat.not_lt_zero _)
  | succ fuel ih =>
    intro s visited hnd hvlt hs hsv hf
    simp only [find_paths_core]
    by_cases hse : s = e
    · simp [hse]
    · rw [if_neg hse]
      simp only [Option.isSome_map']
      have hnd' : (s :: visited).Nodup := List.nodup_cons.mpr ⟨hsv, hnd⟩
      have hvlt' : ∀ x ∈ s :: visited, x < n := by
        intro x hx
        rcases List.mem_cons.mp hx with rfl | hx
        · exact hs
        · exact hvlt x hx
      have hlen : (s :: visited).length ≤ n := nodup_bounded_length_le hnd' hvlt'
      refine find_paths_listWith_isSome (outSuccs g s) fun w hw hwv => ?_
      refine ih w (s :: visited) hnd' hvlt' (hbound s w hw) hwv ?_
      simp only [List.length_cons]
      simp only [List.length_cons] at hlen
      omega

theorem feedbackCycle_downCore_none :
    ∀ (fuel v : Nat), v < 3 → downCore (outSuccs feedbackCycle) fuel v = none := by
  intro fuel
  induction fuel with
  | zero => intro v _; rfl
  | succ fuel ih =>
    intro v hv
    have hw : (v + 1) % 3 < 3 := Nat.mod_lt _ (by decide)
    have hnone := ih ((v + 1) % 3) hw
    have hsv : outSuccs feedbackCycle v = [(v + 1) % 3] := by
      simp [outSuccs, feedbackCycle, hv]
    simp only [downCore, hsv, downListWith, hnone]
    rfl

theorem getD_set_self {α : Type} : ∀ (l : List α) (i : Nat) (a d : α),
    i < l.length → (l.set i a).getD i d = a
  | [], i, _, _, h => absurd h (by simp)
  | x :: xs, 0, a, d, _ => rfl
  | x :: xs, i + 1, a, d, h =>
    getD_set_self xs i a d (Nat.lt_of_succ_lt_succ (by simpa using h))

theorem findFirstIdx_eq_some {p : List Nat → Bool} :
    ∀ (l : List (List Nat)) (i : Nat), findFirstIdx p l = some i →
      i < l.length ∧ p (l.getD i []) = true
  | [], i, h => by simp [findFirstIdx] at h
  | c :: cs, i, h => by
    simp only [findFirstIdx] at h
    by_cases hc : p c
    · rw [if_pos hc] at h
      cases h
      exact ⟨by simp, hc⟩
    · rw [if_neg hc] at h
      cases hrec : findFirstIdx p cs with
      | none => rw [hrec] at h; simp at h
      | some j =>
        rw [hrec] at h
        simp only [Option.map_some', Option.some.injEq] at h
        subst h
        have := findFirstIdx_eq_some cs j hrec
        exact ⟨by simpa using Nat.succ_lt_succ this.1, this.2⟩

theorem findFirstIdx_isSome_eq_any (p : List Nat → Bool) :
    ∀ (l : List (List Nat)), (findFirstIdx p l).isSome = l.any p
  | [] => rfl
  | c :: cs => by
    simp only [findFirstIdx, List.any_cons]
    by_cases hc : p c
    · simp [hc]
    · simp [hc, findFirstIdx_isSome_eq_any p cs]

/-- Claim C3: `insert_operator_between(new_op, source, target)` returns
`True` exactly when `source` is connected to some input connector of
`target` (`are_connected`); in that case it rewires the graph so that
`source` feeds `new_op`'s first input and `new_op` feeds the input of
`target` that `source` previously occupied; when it returns `False`,
every connection of `source`, `target` and `new_op` is left unchanged
(the whole state is untouched).  `new_op` is an operator distinct from
`target` that has at least one input connector. -/
theorem claim_C3_insert_operator_between (st : InState) (new_op source target : Nat)
    (hnt : new_op ≠ target) (hconn : st new_op ≠ []) :
    ((insert_operator_between st new_op source target).1 =
      are_connected st source target) ∧
    ((insert_operator_between st new_op source target).1 = false →
      (insert_operator_between st new_op source target).2 = st) ∧
    ((insert_operator_between st new_op source target).1 = true →
      ∃ i, i < (st target).length ∧
        source ∈ (st target).getD i [] ∧
        ((insert_operator_between st new_op source target).2 new_op).getD 0 [] =
          [source] ∧
        ((insert_operator_between st new_op source target).2 target).getD i [] =
          [new_op]) := by
  have htn : target ≠ new_op := fun h => hnt h.symm
  cases hfind : findFirstIdx (hasSourceConn source) (st target) with
  | none =>
    have h1 : insert_operator_between st new_op source target = (false, st) := by
      simp [insert_operator_between, hfind]
    refine ⟨?_, fun _ => by simp [h1], fun habs => by simp [h1] at habs⟩
    have := findFirstIdx_isSome_eq_any (hasSourceConn source) (st target)
    rw [hfind] at this
    simp only [h1, are_connected, ← this, Option.isSome_none]
  | some i =>
    obtain ⟨hi, hp⟩ := findFirstIdx_eq_some (st target) i hfind
    have h1 : (insert_operator_between st new_op source target).1 = true := by
      simp [insert_operator_between, hfind]
    have hany : are_connected st source target = true := by
      have := findFirstIdx_isSome_eq_any (hasSourceConn source) (st target)
      rw [hfind] at this
      simp only [are_connected, ← this, Option.isSome_some]
    refine ⟨by rw [h1, hany], ?_, ?_⟩
    · intro habs
      rw [h1] at habs
      cases habs
    intro _
    refine ⟨i, hi, ?_, ?_, ?_⟩
    · have h2 := hp
      simp only [hasSourceConn, Bool.and_eq_true] at h2
      simpa using h2.2
    · have hno : (insert_operator_between st new_op source target).2 new_op =
          (st new_op).set 0 [source] := by
        simp [insert_operator_between, hfind, updateF, hnt, htn]
      rw [hno]
      exact getD_set_self _ 0 _ _ (List.length_pos.mpr hconn)
    · have hta : (insert_operator_between st new_op source target).2 target =
          ((st target).set i []).set i [new_op] := by
        simp [insert_operator_between, hfind, updateF, hnt, htn]
      rw [hta]
      exact getD_set_self _ i _ _ (by simpa using hi)

theorem Pool.acquire_perm (p : Pool) :
    (p.acquire.1.available ++ p.acquire.1.in_use).Perm (p.available ++ p.in_use) := by
  unfold Pool.acquire
  cases h : p.available.getLast? with
  | none => simp
  | some x =>
    simp only
    have hne : p.available ≠ [] := by
      intro habs
      rw [habs] at h
      simp at h
    have hsplit : p.available.dropLast ++ [x] = p.available := by
      have h2 := List.dropLast_append_getLast hne
      rwa [List.getLast_eq_iff_getLast?_eq_some hne |>.mpr h] at h2
    have h1 : List.Perm (p.in_use ++ [x]) ([x] ++ p.in_use) := List.perm_append_comm
    have h2 := List.Perm.append_left p.available.dropLast h1
    refine h2.trans ?_
    rw [← List.append_assoc, hsplit]

theorem Pool.release_perm (p : Pool) (x : Nat) :
    ((p.release x).available ++ (p.release x).in_use).Perm
      (p.available ++ p.in_use) := by
  unfold Pool.release
  by_cases hx : x ∈ p.in_use
  · rw [if_pos hx]
    simp only
    have h1 : List.Perm ([x] ++ p.in_use.erase x) p.in_use :=
      (List.perm_cons_erase hx).symm
    have h2 := List.Perm.append_left p.available h1
    rw [List.append_assoc]
    exact h2
  · simp [hx]

theorem Pool.run_perm (n : Nat) (acts : List PoolAction) :
    (((Pool.init n).run acts).available ++ ((Pool.init n).run acts).in_use).Perm
      (List.range n) := by
  suffices h : ∀ (p : Pool) (l : List Nat),
      (p.available ++ p.in_use).Perm l →
      ((p.run acts).available ++ (p.run acts).in_use).Perm l by
    exact h (Pool.init n) (List.range n) (by simp [Pool.init])
  induction acts with
  | nil => intro p l hp; exact hp
  | cons a acts ih =>
    intro p l hp
    simp only [Pool.run, List.foldl_cons]
    cases a with
    | acquire => exact ih _ _ ((Pool.acquire_perm p).trans hp)
    | release x => exact ih _ _ ((Pool.release_perm p x).trans hp)

theorem lookup_setParam_eq (q : List (String × Int)) (k : String) (v : Int) :
    (List.lookup k q).isSome → List.lookup k (setParam q k v) = some v := by
  induction q with
  | nil => intro h; simp [List.lookup] at h
  | cons kv rest ih =>
    intro h
    by_cases hk : kv.1 = k
    · simp [setParam, hk, List.lookup]
    · have hk' : (k == kv.1) = false := by
        simp only [beq_eq_false_iff_ne, ne_eq]
        exact fun habs => hk habs.symm
      simp only [List.lookup, hk', cond_false] at h ⊢
      rw [show setParam (kv :: rest) k v = kv :: setParam rest k v by
        simp [setParam, hk]]
      simp only [List.lookup, hk', cond_false]
      exact ih h

theorem lookup_setParam_ne (q : List (String × Int)) (k k' : String) (v : Int)
    (hne : k ≠ k') : List.lookup k (setParam q k' v) = List.lookup k q := by
  induction q with
  | nil => simp [setParam]
  | cons kv rest ih =>
    by_cases hk : kv.1 = k'
    · rw [show setParam (kv :: rest) k' v = (kv.1, v) :: rest by simp [setParam, hk]]
      have hk2 : (k == kv.1) = false := by
        simp only [beq_eq_false_iff_ne, ne_eq]
        exact fun habs => hne (habs.trans hk)
      simp [List.lookup, hk2]
    · rw [show setParam (kv :: rest) k' v = kv :: setParam rest k' v by
        simp [setParam, hk]]
      by_cases hkk : k = kv.1
      · simp [List.lookup, hkk]
      · have hk2 : (k == kv.1) = false := by
          simp only [beq_eq_false_iff_ne, ne_eq]
          exact hkk
        simp [List.lookup, hk2, ih]

theorem isSome_lookup_setParam (q : List (String × Int)) (k k' : String) (v : Int) :
    (List.lookup k (setParam q k' v)).isSome = (List.lookup k q).isSome := by
  by_cases hne : k = k'
  · subst hne
    cases h : List.lookup k q with
    | none =>
      cases h2 : List.lookup k (setParam q k v) with
      | none => simp
      | some w =>
        exfalso
        induction q with
        | nil => simp [setParam, List.lookup] at h2
        | cons kv rest ih =>
          by_cases hk : kv.1 = k
          · simp [List.lookup, hk] at h
          · have hk2 : (k == kv.1) = false := by
              simp only [beq_eq_false_iff_ne, ne_eq]
              exact fun habs => hk habs.symm
            rw [show setParam (kv :: rest) k v = kv :: setParam rest k v by
              simp [setParam, hk]] at h2
            simp only [List.lookup, hk2, cond_false] at h h2
            exact ih h h2
    | some w => rw [lookup_setParam_eq q k v (by simp [h])]; simp
  · rw [lookup_setParam_ne q k k' v hne]

theorem lookup_eq_some_mem (q : List (String × Int)) (k : String) (v : Int) :
    List.lookup k q = some v → (k, v) ∈ q := by
  induction q with
  | nil => intro h; simp [List.lookup] at h
  | cons kv rest ih =>
    intro h
    by_cases hk : k = kv.1
    · simp only [List.lookup, hk, beq_self_eq_true, cond_true, Option.some.injEq] at h
      subst h
      rw [hk]
      exact List.mem_cons_self _ _
    · have hk2 : (k == kv.1) = false := by
        simp only [beq_eq_false_iff_ne, ne_eq]
        exact hk
      simp only [List.lookup, hk2, cond_false] at h
      exact List.mem_cons_of_mem _ (ih h)

theorem mem_lookup_isSome (q : List (String × Int)) (kv : String × Int)
    (h : kv ∈ q) : (List.lookup kv.1 q).isSome := by
  induction q with
  | nil => cases h
  | cons kv' rest ih =>
    rcases List.mem_cons.mp h with rfl | h2
    · simp [List.lookup]
    · by_cases hk : kv.1 = kv'.1
      · simp [List.lookup, hk]
      · have hk2 : (kv.1 == kv'.1) = false := by
          simp only [beq_eq_false_iff_ne, ne_eq]
          exact hk
        simp only [List.lookup, hk2, cond_false]
        exact ih h2

theorem restoreStep_nodeX (acc : Operator) (kv : String × Int) :
    (restoreStep acc kv).nodeX = acc.nodeX := by
  unfold restoreStep
  split <;> rfl

theorem restoreStep_nodeY (acc : Operator) (kv : String × Int) :
    (restoreStep acc kv).nodeY = acc.nodeY := by
  unfold restoreStep
  split <;> rfl

theorem foldl_restoreStep_nodeX :
    ∀ (ps : List (String × Int)) (acc : Operator),
      (ps.foldl restoreStep acc).nodeX = acc.nodeX
  | [], _ => rfl
  | kv :: ps, acc => by
    rw [List.foldl_cons, foldl_restoreStep_nodeX ps, restoreStep_nodeX]

theorem foldl_restoreStep_nodeY :
    ∀ (ps : List (String × Int)) (acc : Operator),
      (ps.foldl restoreStep acc).nodeY = acc.nodeY
  | [], _ => rfl
  | kv :: ps, acc => by
    rw [List.foldl_cons, foldl_restoreStep_nodeY ps, restoreStep_nodeY]

theorem foldl_restoreStep_lookup_of_not_mem :
    ∀ (ps : List (String × Int)) (acc : Operator) (k : String),
      k ∉ ps.map Prod.fst →
      List.lookup k ((ps.foldl restoreStep acc).params) = List.lookup k acc.params
  | [], _, _, _ => rfl
  | kv :: ps, acc, k, hk => by
    have hk1 : k ≠ kv.1 := by
      intro habs
      exact hk (by simp [habs])
    have hk2 : k ∉ ps.map Prod.fst := fun habs => hk (by simp [habs])
    rw [List.foldl_cons, foldl_restoreStep_lookup_of_not_mem ps _ k hk2]
    unfold restoreStep
    split
    · exact lookup_setParam_ne acc.params k kv.1 kv.2 hk1
    · rfl

theorem foldl_restoreStep_mem :
    ∀ (ps : List (String × Int)) (acc : Operator),
      (ps.map Prod.fst).Nodup →
      (∀ kv ∈ ps, (List.lookup kv.1 acc.params).isSome) →
      ∀ kv ∈ ps, List.lookup kv.1 ((ps.foldl restoreStep acc).params) = some kv.2
  | [], _, _, _, kv, hkv => absurd hkv (by simp)
  | kv0 :: ps, acc, hnd, hpres, kv, hkv => by
    have hpres0 : (List.lookup kv0.1 acc.params).isSome :=
      hpres kv0 (List.mem_cons_self _ _)
    have hstep : (restoreStep acc kv0).params = setParam acc.params kv0.1 kv0.2 := by
      unfold restoreStep
      rw [if_pos hpres0]
    have hnd2 : (kv0.1 :: ps.map Prod.fst).Nodup := by
      rw [List.map_cons] at hnd
      exact hnd
    have hnd' : (ps.map Prod.fst).Nodup := (List.nodup_cons.mp hnd2).2
    have hnotmem : kv0.1 ∉ ps.map Prod.fst := (List.nodup_cons.mp hnd2).1
    rw [List.foldl_cons]
    rcases List.mem_cons.mp hkv with rfl | hkv2
    · rw [foldl_restoreStep_lookup_of_not_mem ps _ kv.1 hnotmem, hstep]
      exact lookup_setParam_eq acc.params kv.1 kv.2 hpres0
    · refine foldl_restoreStep_mem ps (restoreStep acc kv0) hnd' ?_ kv hkv2
      intro kv' hkv'
      rw [hstep, isSome_lookup_setParam]
      exact hpres kv' (List.mem_cons_of_mem _ hkv')

/-- Claim C9: `NetworkState.save_operator_state` followed by
`NetworkState.restore_operator_state` on the same operator (same path,
captured parameters still present and settable) returns `True` and
restores `nodeX`, `nodeY` and every parameter captured at save time to
its saved value, regardless of the modification `m` applied in
between. -/
theorem claim_C9_save_restore (st0 : List (String × OpState)) (opr : Operator)
    (m : Operator → Operator)
    (hpath : (m opr).path = opr.path)
    (hnodup : (opr.params.map Prod.fst).Nodup)
    (hpresent : ∀ kv ∈ opr.params, (List.lookup kv.1 (m opr).params).isSome) :
    ∃ op2, restore_operator_state (save_operator_state st0 (some opr))
        (some (m opr)) = (true, some op2) ∧
      op2.nodeX = opr.nodeX ∧ op2.nodeY = opr.nodeY ∧
      ∀ k v, List.lookup k opr.params = some v →
        List.lookup k op2.params = some v := by
  have hbeq : ((m opr).path == opr.path) = true := by
    simp [hpath]
  refine ⟨opr.params.foldl restoreStep
      { m opr with nodeX := opr.nodeX, nodeY := opr.nodeY }, ?_, ?_, ?_, ?_⟩
  · simp only [save_operator_state, restore_operator_state, List.lookup, hbeq,
      cond_true]
  · rw [foldl_restoreStep_nodeX]
  · rw [foldl_restoreStep_nodeY]
  · intro k v hkv
    have hmem := lookup_eq_some_mem opr.params k v hkv
    exact foldl_restoreStep_mem opr.params _ hnodup
      (by intro kv' h'; simpa using hpresent kv' h') (k, v) hmem

/-! ## Claims -/

/-- Claim C1: for every operator of a connection graph on which the
traversals return, `get_downstream_ops` returns exactly the set of
operators reachable by following one or more output connections, each
appearing once, and `get_upstream_ops` symmetrically returns exactly the
set of operators reachable by one or more input connections, each
appearing once. -/
theorem claim_C1_traversal_reachability (g : ConnGraph) (fuelD fuelU v : Nat)
    (ld lu : List Nat)
    (hd : get_downstream_ops g fuelD v = some ld)
    (hu : get_upstream_ops g fuelU v = some lu) :
    (∀ w, w ∈ ld ↔ Reaches (outSuccs g) v w) ∧ ld.Nodup ∧
    (∀ w, w ∈ lu ↔ Reaches (inSuccs g) v w) ∧ lu.Nodup :=
  ⟨(downCore_spec (outSuccs g) fuelD v ld hd).1,
   (downCore_spec (outSuccs g) fuelD v ld hd).2,
   (downCore_spec (inSuccs g) fuelU v lu hu).1,
   (downCore_spec (inSuccs g) fuelU v lu hu).2⟩

/-- Witness for C1 on the graph of `connection_utility_examples`, at the
composite operator (id 3). -/
theorem claim_C1_traversal_reachability_witness :
    get_downstream_ops utilGraph 5 3 = some [] ∧
    get_upstream_ops utilGraph 5 3 = some [2, 0, 1] ∧
    ((∀ w, w ∈ ([] : List Nat) ↔ Reaches (outSuccs utilGraph) 3 w) ∧
      ([] : List Nat).Nodup ∧
      (∀ w, w ∈ [2, 0, 1] ↔ Reaches (inSuccs utilGraph) 3 w) ∧
      ([2, 0, 1] : List Nat).Nodup) :=
  ⟨by decide, by decide,
    claim_C1_traversal_reachability utilGraph 5 5 3 [] [2, 0, 1]
      (by decide) (by decide)⟩

/-- Counterexample to C2 as stated: on the wire cycle that
`create_generative_feedback_system` constructs, `get_downstream_ops`
never returns — it has no visited set, so no amount of fuel makes the
recursion bottom out. -/
theorem claim_C2_cycle_counterexample :
    ¬ DownstreamTerminatesOn feedbackCycle 0 := by
  intro h
  obtain ⟨fuel, h2⟩ := h
  have h0 := feedbackCycle_downCore_none fuel 0 (by decide)
  simp only [get_downstream_ops] at h2
  rw [h0] at h2
  simp at h2

/-- Claim C2 (amended): `find_paths` carries a visited set and terminates
on every finite connection graph, cyclic or not; `get_downstream_ops`
carries no visited set and terminates (only) on adjacencies that admit a
strictly decreasing rank, i.e. on acyclic graphs. -/
theorem claim_C2_traversal_termination (succ : Nat → List Nat) (rank : Nat → Nat)
    (hrank : ∀ v w, w ∈ succ v → rank w < rank v) (v : Nat)
    (g : ConnGraph) (n e s : Nat)
    (hbound : ∀ u, ∀ w ∈ outSuccs g u, w < n) (hs : s < n) :
    (downCore succ (rank v + 1) v).isSome ∧
    (find_paths g (n + 1) s e).isSome := by
  refine ⟨downCore_isSome_of_rank succ rank hrank (rank v + 1) v
    (Nat.lt_succ_self _), ?_⟩
  unfold find_paths
  refine find_paths_core_isSome g n e hbound (n + 1) s [] List.nodup_nil
    (by simp) hs (by simp) (by simp)

/-- Witness for the amended C2 on a concrete graph. -/
theorem claim_C2_traversal_termination_witness :
    (∀ v w, w ∈ (fun _ : Nat => ([] : List Nat)) v → (fun _ : Nat => 0) w < (fun _ : Nat => 0) v) ∧
    (∀ u, ∀ w ∈ outSuccs ⟨fun _ => [], fun _ => []⟩ u, w < 1) ∧
    (0 : Nat) < 1 ∧
    ((downCore (fun _ : Nat => ([] : List Nat)) ((fun _ : Nat => 0) 0 + 1) 0).isSome ∧
      (find_paths ⟨fun _ => [], fun _ => []⟩ (1 + 1) 0 0).isSome) :=
  ⟨by simp, by simp [outSuccs], by decide,
    claim_C2_traversal_termination (fun _ => []) (fun _ => 0)
      (by simp) 0 ⟨fun _ => [], fun _ => []⟩ 1 0 0 (by simp [outSuccs]) (by decide)⟩

/-- Witness for C3 on the script's own insertion:
`insert_operator_between(level, blur, comp)` with level = 4, blur = 2,
comp = 3. -/
theorem claim_C3_insert_operator_between_witness :
    ((4 : Nat) ≠ 3) ∧ (utilInState 4 ≠ []) ∧
    (((insert_operator_between utilInState 4 2 3).1 =
        are_connected utilInState 2 3) ∧
      ((insert_operator_between utilInState 4 2 3).1 = false →
        (insert_operator_between utilInState 4 2 3).2 = utilInState) ∧
      ((insert_operator_between utilInState 4 2 3).1 = true →
        ∃ i, i < (utilInState 3).length ∧
          2 ∈ (utilInState 3).getD i [] ∧
          ((insert_operator_between utilInState 4 2 3).2 4).getD 0 [] = [2] ∧
          ((insert_operator_between utilInState 4 2 3).2 3).getD i [] = [4])) :=
  ⟨by decide, by decide,
    claim_C3_insert_operator_between utilInState 4 2 3 (by decide) (by decide)⟩

/-- Claim C4: after construction with `pool_size` operators and any
sequence of `acquire()` and `release()` calls, every pooled operator is
in exactly one of `available` and `in_use`, the two lengths sum to
`pool_size`, and `acquire()` returns `None` when `available` is
empty. -/
theorem claim_C4_pool_invariant (n : Nat) (acts : List PoolAction) :
    (∀ i, i < n →
      ((i ∈ (Pool.run (Pool.init n) acts).available ∧
          i ∉ (Pool.run (Pool.init n) acts).in_use) ∨
        (i ∈ (Pool.run (Pool.init n) acts).in_use ∧
          i ∉ (Pool.run (Pool.init n) acts).available))) ∧
    (Pool.run (Pool.init n) acts).available.length +
      (Pool.run (Pool.init n) acts).in_use.length = n ∧
    ((Pool.run (Pool.init n) acts).available = [] →
      ((Pool.run (Pool.init n) acts).acquire).2 = none) := by
  have hperm := Pool.run_perm n acts
  have hnodup : ((Pool.run (Pool.init n) acts).available ++
      (Pool.run (Pool.init n) acts).in_use).Nodup :=
    hperm.nodup_iff.mpr (List.nodup_range n)
  obtain ⟨hA, hB, hdisj⟩ := List.nodup_append.mp hnodup
  refine ⟨?_, ?_, ?_⟩
  · intro i hi
    have hmem : i ∈ (Pool.run (Pool.init n) acts).available ++
        (Pool.run (Pool.init n) acts).in_use :=
      hperm.mem_iff.mpr (List.mem_range.mpr hi)
    rcases List.mem_append.mp hmem with h | h
    · exact Or.inl ⟨h, fun habs => hdisj h habs⟩
    · exact Or.inr ⟨h, fun habs => hdisj habs h⟩
  · have hlen := hperm.length_eq
    simpa using hlen
  · intro hav
    simp [Pool.acquire, hav]

/-- Witness for C4 on a pool of two operators and a concrete call
sequence. -/
theorem claim_C4_pool_invariant_witness :
    ((0 : Nat) < 2) ∧
    ((0 ∈ (Pool.run (Pool.init 2)
          [PoolAction.acquire, PoolAction.release 1, PoolAction.acquire]).available ∧
        0 ∉ (Pool.run (Pool.init 2)
          [PoolAction.acquire, PoolAction.release 1, PoolAction.acquire]).in_use) ∨
      (0 ∈ (Pool.run (Pool.init 2)
          [PoolAction.acquire, PoolAction.release 1, PoolAction.acquire]).in_use ∧
        0 ∉ (Pool.run (Pool.init 2)
          [PoolAction.acquire, PoolAction.release 1, PoolAction.acquire]).available)) :=
  ⟨by decide,
    (claim_C4_pool_invariant 2
      [PoolAction.acquire, PoolAction.release 1, PoolAction.acquire]).1 0 (by decide)⟩

/-- Counterexample to C5 as stated: two wrappers defined in
error_handling_examples.py re-raise the guarded exception to their
caller — `debug_operation` ends its handler with a bare `raise`, and
`OperatorContext.__exit__` returns `False` so the `with` statement
propagates the body's exception. -/
theorem claim_C5_catch_counterexample :
    (debug_operation "test_function" test_function (10, 0)).2 =
      Except.error "Division by zero" ∧
    with_OperatorContext (Except.ok 1)
      (fun _ => (Except.error "Test error" : Except String Nat)) =
      Except.error "Test error" :=
  ⟨rfl, rfl⟩

/-- Claim C5 (amended): wrappers such as `safe_operator_creation` print a
message and return `None` without re-raising; but `debug_operation`
returns exactly its wrapped call's outcome (re-raising any exception),
and `OperatorContext.__exit__` always returns `False`, so an exception
raised in the guarded `with` body propagates to the caller. -/
theorem claim_C5_error_wrappers {α β : Type} (name e : String)
    (fname : String) (f : α → Except String β) (args : α)
    (o : Option Nat) (et : Option String)
    (op : Nat) (body : Nat → Except String Nat) (msg : String)
    (hbody : body op = Except.error msg) :
    safe_operator_creation name (Except.error e) =
      (["Failed to create " ++ name ++ ": " ++ e], none) ∧
    (debug_operation fname f args).2 = f args ∧
    (OperatorContext_exit o et).2 = false ∧
    with_OperatorContext (Except.ok op) body = Except.error msg := by
  refine ⟨rfl, ?_, ?_, ?_⟩
  · cases h : f args <;> simp [debug_operation, h]
  · cases et <;> rfl
  · simp [with_OperatorContext, hbody, OperatorContext_exit]

/-- Witness for the amended C5 at concrete wrappers and messages. -/
theorem claim_C5_error_wrappers_witness :
    ((fun _ : Nat => (Except.error "Test error" : Except String Nat)) 1 =
      Except.error "Test error") ∧
    (safe_operator_creation "err" (Except.error "duplicate name") =
        (["Failed to create " ++ "err" ++ ": " ++ "duplicate name"], none) ∧
      (debug_operation "test_function" test_function (10, 0)).2 =
        test_function (10, 0) ∧
      (OperatorContext_exit (some 1) (some "boom")).2 = false ∧
      with_OperatorContext (Except.ok 1)
        (fun _ => (Except.error "Test error" : Except String Nat)) =
        Except.error "Test error") :=
  ⟨rfl, claim_C5_error_wrappers "err" "duplicate name" "test_function"
    test_function (10, 0) (some 1) (some "boom") 1
    (fun _ => Except.error "Test error") "Test error" rfl⟩

/-- Counterexample to C6 as stated: `basic_connection_examples` returns
the `conn_blur` blur TOP it created — not a container COMP, and not the
root of the network it built. -/
theorem claim_C6_counterexample :
    (basic_connection_examples ⟨[], []⟩).1.typeOf
      (basic_connection_examples ⟨[], []⟩).2 = some OpType.blurTOP ∧
    OpType.blurTOP.family ≠ OpFamily.COMP := by
  decide

/-- Claim C6 (amended): template scripts such as
`create_audio_reactive_system` do return the container COMP they create
first as the root (every other operator they create is its child), but
not every script file does: `basic_connection_examples` in
connection_examples.py returns the blur TOP it created. -/
theorem claim_C6_entry_returns :
    (create_audio_reactive_system ⟨[], []⟩).2 = 1 ∧
    (create_audio_reactive_system ⟨[], []⟩).1.typeOf 1 =
      some OpType.containerCOMP ∧
    OpType.containerCOMP.family = OpFamily.COMP ∧
    ((create_audio_reactive_system ⟨[], []⟩).1.ops.drop 1).all
      (fun c => c.parent == 1) = true ∧
    (basic_connection_examples ⟨[], []⟩).1.typeOf
      (basic_connection_examples ⟨[], []⟩).2 = some OpType.blurTOP ∧
    OpType.blurTOP.family = OpFamily.TOP := by
  decide

/-- Counterexample to C7 as stated: `get_relative_path` is a pure
function defined in the source that satisfies a round-trip law statable
with no reference to host behavior (proved in general in the amended
theorem); here is the law's instance on the script's own sibling
containers — go up one level from `nav_level1` and descend into
`nav_level2`. -/
theorem claim_C7_counterexample :
    resolveRel ["", "project1", "path_root", "nav_level1"]
      (relParts ["", "project1", "path_root", "nav_level1"]
        ["", "project1", "path_root", "nav_level2"]) =
      ["", "project1", "path_root", "nav_level2"] ∧
    relParts ["", "project1", "path_root", "nav_level1"]
      ["", "project1", "path_root", "nav_level2"] =
      (1, ["nav_level2"]) := by
  constructor
  · decide
  · decide

/-- Claim C7 (amended): the repository does own host-independent
verifiable properties: `get_relative_path` satisfies a round-trip law,
and `OperatorPool` maintains a quantified size invariant over every call
sequence. -/
theorem claim_C7_host_free_laws :
    (∀ (fromPath toPath : String),
      resolveRel (fromPath.splitOn "/")
        (relParts (fromPath.splitOn "/") (toPath.splitOn "/")) =
        toPath.splitOn "/") ∧
    (∀ (n : Nat) (acts : List PoolAction),
      (Pool.run (Pool.init n) acts).available.length +
        (Pool.run (Pool.init n) acts).in_use.length = n) := by
  refine ⟨fun fromPath toPath => resolveRel_relParts _ _, fun n acts => ?_⟩
  have hlen := (Pool.run_perm n acts).length_eq
  simpa using hlen

/-- Claim C8: resolving the `(up_levels, remaining)` relative path that
`get_relative_path` computes (and renders as `'../' * up + '/'.join`)
against the source operator's path components yields exactly the target
operator's path components, and the common prefix it computes is the
longest component-wise common prefix of the two paths. -/
theorem claim_C8_relative_path (fromPath toPath : String) :
    get_relative_path fromPath toPath =
      String.join (List.replicate
        (relParts (fromPath.splitOn "/") (toPath.splitOn "/")).1 "../") ++
      String.intercalate "/"
        (relParts (fromPath.splitOn "/") (toPath.splitOn "/")).2 ∧
    resolveRel (fromPath.splitOn "/")
      (relParts (fromPath.splitOn "/") (toPath.splitOn "/")) =
      toPath.splitOn "/" ∧
    (fromPath.splitOn "/").take
        (commonLen (fromPath.splitOn "/") (toPath.splitOn "/")) =
      (toPath.splitOn "/").take
        (commonLen (fromPath.splitOn "/") (toPath.splitOn "/")) ∧
    ∀ k, k ≤ (fromPath.splitOn "/").length →
      (fromPath.splitOn "/").take k = (toPath.splitOn "/").take k →
      k ≤ commonLen (fromPath.splitOn "/") (toPath.splitOn "/") :=
  ⟨rfl, resolveRel_relParts _ _, take_commonLen_eq _ _,
    fun k hk h => commonLen_longest _ _ k hk h⟩

/-- Witness for C8 on the script's own paths
(`/project1/path_root/nav_level1` to
`/project1/path_root/nav_level1/nav_level2/target_noise`). -/
theorem claim_C8_relative_path_witness :
    resolveRel ("/project1/path_root/nav_level1".splitOn "/")
      (relParts ("/project1/path_root/nav_level1".splitOn "/")
        ("/project1/path_root/nav_level1/nav_level2/target_noise".splitOn "/")) =
      "/project1/path_root/nav_level1/nav_level2/target_noise".splitOn "/" ∧
    (0 ≤ ("/project1/path_root/nav_level1".splitOn "/").length) ∧
    ("/project1/path_root/nav_level1".splitOn "/").take 0 =
      ("/project1/path_root/nav_level1/nav_level2/target_noise".splitOn "/").take 0 ∧
    0 ≤ commonLen ("/project1/path_root/nav_level1".splitOn "/")
      ("/project1/path_root/nav_level1/nav_level2/target_noise".splitOn "/") :=
  ⟨(claim_C8_relative_path "/project1/path_root/nav_level1"
      "/project1/path_root/nav_level1/nav_level2/target_noise").2.1,
   Nat.zero_le _, rfl,
   (claim_C8_relative_path "/project1/path_root/nav_level1"
      "/project1/path_root/nav_level1/nav_level2/target_noise").2.2.2 0
     (Nat.zero_le _) rfl⟩

/-- Witness for C9: save, move and re-parameterize the operator, then
restore. -/
theorem claim_C9_save_restore_witness :
    ((exampleMod exampleOp).path = exampleOp.path) ∧
    ((exampleOp.params.map Prod.fst).Nodup) ∧
    (∀ kv ∈ exampleOp.params,
      (List.lookup kv.1 (exampleMod exampleOp).params).isSome) ∧
    (∃ op2, restore_operator_state (save_operator_state [] (some exampleOp))
        (some (exampleMod exampleOp)) = (true, some op2) ∧
      op2.nodeX = exampleOp.nodeX ∧ op2.nodeY = exampleOp.nodeY ∧
      ∀ k v, List.lookup k exampleOp.params = some v →
        List.lookup k op2.params = some v) :=
  ⟨by decide, by decide, by decide,
    claim_C9_save_restore [] exampleOp exampleMod (by decide) (by decide)
      (by decide)⟩

end TDNet
